import Mathlib

/-!
Shallow embedding of the WhatsApp-voice integration layer of the
`twilio-voice.js` fork: the TwiML template/builder module
(`src/lib/twiml-templates.ts`), the WhatsApp voice wrapper and conference
session (`src/unnamed/part_000`, class `WhatsAppVoice`, class
`ConferenceSession`, object `WhatsAppVoiceUtils`), and the example server
registry (`src/examples/client.ts`).

JavaScript strings are embedded as Lean `String` and manipulated through
their character lists; `String.prototype.startsWith` is embedded as
`strStarts` (character-list prefix test), and anchored single-occurrence
`replace(/^p/, "")` as a conditional character drop.  JavaScript `Map`
objects (insertion-ordered, unique keys, `set` on an existing key updates
the value in place) are embedded as association lists with the operations
`mapGet`, `mapSet`, `mapDelete`.  `Date.now` style timestamps are `Nat`
parameters supplied by the caller; the SDK `device.connect` call is a
deterministic fresh-call supply threaded through the state.
-/

/-- JavaScript `Map.get`: value at the first (and, for map-built lists, only)
occurrence of the key. -/
def mapGet {β : Type} (m : List (String × β)) (k : String) : Option β :=
  match m with
  | [] => none
  | (k2, v) :: rest => if k2 = k then some v else mapGet rest k

/-- JavaScript `Map.set`: update the value in place when the key is present
(keeping its position), otherwise append the new entry at the end. -/
def mapSet {β : Type} (m : List (String × β)) (k : String) (v : β) : List (String × β) :=
  match m with
  | [] => [(k, v)]
  | (k2, v2) :: rest => if k2 = k then (k, v) :: rest else (k2, v2) :: mapSet rest k v

/-- JavaScript `Map.delete`: remove the entry at the key, if any. -/
def mapDelete {β : Type} (m : List (String × β)) (k : String) : List (String × β) :=
  match m with
  | [] => []
  | (k2, v2) :: rest => if k2 = k then rest else (k2, v2) :: mapDelete rest k

/-- Keys of an association list, in order. -/
def mapKeys {β : Type} (m : List (String × β)) : List String :=
  m.map (fun e => e.1)

/-- Embedding of `s.startsWith(p)` on JavaScript strings. -/
def strStarts (s p : String) : Bool :=
  p.data.isPrefixOf s.data

/-- The fixed channel prefix used throughout the source. -/
def whatsappTag : String := "whatsapp:"

/-- Embedding of `WhatsAppVoiceUtils.formatWhatsAppNumber`
(src/unnamed/part_000, lines 335-343): strip one leading `whatsapp:` tag,
ensure a leading `+`, re-apply the tag. -/
def formatWhatsAppNumber (phoneNumber : String) : String :=
  let cleanNumber : String :=
    if strStarts phoneNumber whatsappTag then String.mk (phoneNumber.data.drop 9) else phoneNumber
  let formattedNumber : String :=
    if strStarts cleanNumber "+" then cleanNumber else "+" ++ cleanNumber
  whatsappTag ++ formattedNumber

/-- Embedding of `WhatsAppVoiceUtils.isValidWhatsAppNumber`
(src/unnamed/part_000, lines 348-351): the anchored regular expression
`^whatsapp:\+[1-9]\d\x7b1,14\x7d$` as a decidable test on the character list. -/
def isValidWhatsAppNumber (number : String) : Bool :=
  "whatsapp:+".data.isPrefixOf number.data &&
    (match number.data.drop 10 with
     | [] => false
     | c :: cs =>
        (decide (Char.ofNat 49 ≤ c) && decide (c ≤ Char.ofNat 57)) &&
        (decide (1 ≤ cs.length) && decide (cs.length ≤ 14)) &&
        cs.all (fun x => decide (Char.ofNat 48 ≤ x) && decide (x ≤ Char.ofNat 57)))

/-- Embedding of `WhatsAppVoiceUtils.extractPhoneNumber`
(src/unnamed/part_000, lines 356-358). -/
def extractPhoneNumber (whatsappNumber : String) : String :=
  if strStarts whatsappNumber whatsappTag then String.mk (whatsappNumber.data.drop 9) else whatsappNumber

/-- Spec-side rendition of the canonical address shape exactly as claim C5
words it: the channel prefix, then `+`, then 2 to 15 digits, with no
constraint on which digits occur. -/
def claimedCanonicalShape (s : String) : Prop :=
  ∃ ds : List Char, s.data = "whatsapp:+".data ++ ds ∧
    2 ≤ ds.length ∧ ds.length ≤ 15 ∧ ∀ x ∈ ds, Char.ofNat 48 ≤ x ∧ x ≤ Char.ofNat 57

/-- Spec-side rendition of the canonical address shape as amended to match
the source regular expression: the first digit is restricted to 1-9, and 1
to 14 further digits (0-9) follow, for 2 to 15 digits in total. -/
def canonicalShapeAmended (s : String) : Prop :=
  ∃ c cs, s.data = "whatsapp:+".data ++ c :: cs ∧
    Char.ofNat 49 ≤ c ∧ c ≤ Char.ofNat 57 ∧
    1 ≤ cs.length ∧ cs.length ≤ 14 ∧
    ∀ x ∈ cs, Char.ofNat 48 ≤ x ∧ x ≤ Char.ofNat 57

/-- Call handle as held by the wrapper: the platform call sid and the last
known mute state (`call.mute()` / `call.mute(false)` toggle it). -/
structure CallH where
  sid : Nat
  muted : Bool
deriving DecidableEq

/-- Device embedding: `device.connect` is a deterministic fresh-call supply
returning an unmuted call with the next sid. -/
structure Device where
  nextSid : Nat
deriving DecidableEq

/-- Embedding of `device.connect(...)`: allocate a fresh, unmuted call. -/
def Device.connect (d : Device) : CallH × Device :=
  ({ sid := d.nextSid, muted := false }, { nextSid := d.nextSid + 1 })

/-- State of a `ConferenceSession` (src/unnamed/part_000, lines 219-328):
the conference id, the participant map (address to call, a JavaScript
`Map`), and the optional conference call created by `initialize`. -/
structure ConferenceSession where
  conferenceId : String
  participants : List (String × CallH)
  conferenceCall : Option CallH
deriving DecidableEq

/-- Commands sent to call objects by mute or unmute operations. -/
inductive MuteCmd where
  | mute (sid : Nat)
  | unmute (sid : Nat)
deriving DecidableEq

/-- Embedding of `ConferenceSession.addParticipant` (src/unnamed/part_000,
lines 256-279): reject an address that does not start with the channel tag,
otherwise connect a fresh call and `Map.set` it under the address. -/
def ConferenceSession.addParticipant (s : ConferenceSession) (d : Device)
    (whatsappNumber : String) : Except String (ConferenceSession × Device) :=
  if strStarts whatsappNumber whatsappTag then
    let (participantCall, d2) := d.connect
    Except.ok ({ s with participants := mapSet s.participants whatsappNumber participantCall }, d2)
  else
    Except.error "Invalid WhatsApp number format. Must start with \"whatsapp:\""

/-- Embedding of `ConferenceSession.removeParticipant` (src/unnamed/part_000,
lines 281-288): disconnect and delete the entry when the address is present,
do nothing otherwise; no error path exists. -/
def ConferenceSession.removeParticipant (s : ConferenceSession)
    (whatsappNumber : String) : ConferenceSession :=
  match mapGet s.participants whatsappNumber with
  | some _ => { s with participants := mapDelete s.participants whatsappNumber }
  | none => s

/-- Embedding of `ConferenceSession.muteParticipant` (src/unnamed/part_000,
lines 290-296): when the address is present, send `mute` to its call (the
shared call object in the map becomes muted); otherwise do nothing and send
no command. -/
def ConferenceSession.muteParticipant (s : ConferenceSession)
    (whatsappNumber : String) : ConferenceSession × List MuteCmd :=
  match mapGet s.participants whatsappNumber with
  | some call =>
      ({ s with participants := mapSet s.participants whatsappNumber { call with muted := true } },
       [MuteCmd.mute call.sid])
  | none => (s, [])

/-- Embedding of `ConferenceSession.unmuteParticipant` (src/unnamed/part_000,
lines 298-304): when the address is present, send `mute(false)` to its call;
otherwise do nothing and send no command. -/
def ConferenceSession.unmuteParticipant (s : ConferenceSession)
    (whatsappNumber : String) : ConferenceSession × List MuteCmd :=
  match mapGet s.participants whatsappNumber with
  | some call =>
      ({ s with participants := mapSet s.participants whatsappNumber { call with muted := false } },
       [MuteCmd.unmute call.sid])
  | none => (s, [])

/-- Embedding of `ConferenceSession.getParticipants`. -/
def ConferenceSession.getParticipants (s : ConferenceSession) : List String :=
  mapKeys s.participants

/-- Embedding of `ConferenceSession.getParticipantCount`. -/
def ConferenceSession.getParticipantCount (s : ConferenceSession) : Nat :=
  s.participants.length

/-- Sequential `addParticipant` over a participant list, as the `for` loop
in `ConferenceSession.initialize` performs it; the first failure aborts. -/
def addAllParticipants (s : ConferenceSession) (d : Device) :
    List String → Except String (ConferenceSession × Device)
  | [] => Except.ok (s, d)
  | p :: ps =>
      match s.addParticipant d p with
      | Except.ok (s2, d2) => addAllParticipants s2 d2 ps
      | Except.error e => Except.error e

/-- Embedding of `ConferenceSession.initialize` (src/unnamed/part_000,
lines 232-254): connect the conference call, then add each initial
participant in the given order. -/
def ConferenceSession.initSession (s : ConferenceSession) (d : Device)
    (participantsList : List String) : Except String (ConferenceSession × Device) :=
  let (confCall, d2) := d.connect
  addAllParticipants { s with conferenceCall := some confCall } d2 participantsList

/-- Options for `WhatsAppVoice.makeCall` (src/unnamed/part_000, lines 15-19). -/
structure WhatsAppCallOptions where
  toAddr : String
  fromAddr : Option String
  customParameters : List (String × String)
deriving DecidableEq

/-- Options for `WhatsAppVoice.createConference` (src/unnamed/part_000,
lines 21-27). -/
structure ConferenceOptions where
  conferenceId : String
  participants : List String
  moderator : Bool
deriving DecidableEq

/-- Platform connect attempts issued by `makeCall` (the `device.connect`
invocation with its To and From parameters). -/
inductive ConnectAttempt where
  | connect (toAddr fromAddr : String)
deriving DecidableEq

/-- State of a `WhatsAppVoice` instance (src/unnamed/part_000, lines 29-34):
the active-call map keyed by call sid, the active-conference map keyed by
conference id, and the device. -/
structure VoiceState where
  activeCalls : List (Nat × CallH)
  activeConferences : List (String × ConferenceSession)
  device : Device
deriving DecidableEq

/-- JavaScript `Map.set` keyed by `Nat` (call sids). -/
def mapSetNat {β : Type} (m : List (Nat × β)) (k : Nat) (v : β) : List (Nat × β) :=
  match m with
  | [] => [(k, v)]
  | (k2, v2) :: rest => if k2 = k then (k, v) :: rest else (k2, v2) :: mapSetNat rest k v

/-- Embedding of `WhatsAppVoice.makeCall` (src/unnamed/part_000, lines
66-89): validate that the destination starts with the channel tag before
anything else; on failure throw without touching the device or the
active-call map; on success connect and register the call.  The third
component records every `device.connect` attempt made. -/
def WhatsAppVoice.makeCall (st : VoiceState) (sender : String)
    (options : WhatsAppCallOptions) : VoiceState × Except String CallH × List ConnectAttempt :=
  if strStarts options.toAddr whatsappTag then
    let (call, d2) := st.device.connect
    ({ st with activeCalls := mapSetNat st.activeCalls call.sid call, device := d2 },
     Except.ok call,
     [ConnectAttempt.connect options.toAddr
        (match options.fromAddr with
         | some f => if f = "" then sender else f
         | none => sender)])
  else
    (st, Except.error "Invalid WhatsApp number format. Must start with \"whatsapp:\"", [])

/-- Embedding of `WhatsAppVoice.createConference` (src/unnamed/part_000,
lines 94-111): build a fresh session, initialize it (conference call plus
initial participants), then `Map.set` it under the conference id — with no
duplicate-id check, so an existing session under the same id is replaced. -/
def WhatsAppVoice.createConference (st : VoiceState) (options : ConferenceOptions) :
    Except String VoiceState :=
  let s0 : ConferenceSession :=
    { conferenceId := options.conferenceId, participants := [], conferenceCall := none }
  match s0.initSession st.device options.participants with
  | Except.ok (s2, d2) =>
      Except.ok { st with
        activeConferences := mapSet st.activeConferences options.conferenceId s2,
        device := d2 }
  | Except.error e => Except.error e

/-- Conference record stored by the example server registry
(src/examples/client.ts, lines 540-545). -/
structure ConfRecord where
  id : String
  participants : List String
  moderator : Option String
  createdAt : Nat
deriving DecidableEq

/-- Embedding of the `/voice/conference/create` handler's registry update
(src/examples/client.ts, lines 573-594): unconditionally `Map.set` a fresh
record (empty participant list, creation time now) under the conference
name, replacing any record already there. -/
def conferenceCreate (reg : List (String × ConfRecord))
    (conferenceName moderatorField fromField : String) (now : Nat) :
    List (String × ConfRecord) :=
  mapSet reg conferenceName
    { id := conferenceName
      participants := []
      moderator := if moderatorField = "true" then some fromField else none
      createdAt := now }

/-- Embedding of the `/voice/conference/join` handler's registry update
(src/examples/client.ts, lines 599-617): when the conference exists and the
caller is not yet a participant, push the caller; otherwise leave the
registry untouched. -/
def conferenceJoin (reg : List (String × ConfRecord))
    (conferenceName fromField : String) : List (String × ConfRecord) :=
  match mapGet reg conferenceName with
  | some conf =>
      if fromField ∈ conf.participants then reg
      else mapSet reg conferenceName { conf with participants := conf.participants ++ [fromField] }
  | none => reg

/-- Embedding of the registry deletion performed by the `/conference-events`
handler on a `conference-end` event (src/examples/client.ts, line 654). -/
def conferenceDelete (reg : List (String × ConfRecord))
    (friendlyName : String) : List (String × ConfRecord) :=
  mapDelete reg friendlyName

/-- Registry states reachable through the example server's handlers,
starting from the empty module-level map. -/
inductive ClientReachable : List (String × ConfRecord) → Prop where
  | empty : ClientReachable []
  | create (r : List (String × ConfRecord)) (name mod f : String) (t : Nat) :
      ClientReachable r → ClientReachable (conferenceCreate r name mod f t)
  | join (r : List (String × ConfRecord)) (name f : String) :
      ClientReachable r → ClientReachable (conferenceJoin r name f)
  | terminate (r : List (String × ConfRecord)) (name : String) :
      ClientReachable r → ClientReachable (conferenceDelete r name)

/-- Single-quote character, built by code point to keep the embedded source
text faithful. -/
def squote : String := String.mk [Char.ofNat 39]

/-- Literal text of src/lib/twiml-templates.ts line 40, the
`startConferenceOnEnter` attribute line of `TwiMLTemplates.createConference`:
the false-branch literal reads `false` followed by a closing brace and then
the double quote, with the terminating single quote missing. -/
def startOnEnterLine : String :=
  "      startConferenceOnEnter=\"$\x7bparams.moderator ? " ++ squote ++ "true" ++ squote ++
    " : " ++ squote ++ "false\x7d\""

/-- Literal text of src/lib/twiml-templates.ts line 41, the
`endConferenceOnExit` attribute line of the same template, which is
correctly quoted. -/
def endOnExitLine : String :=
  "      endConferenceOnExit=\"$\x7bparams.moderator ? " ++ squote ++ "true" ++ squote ++
    " : " ++ squote ++ "false" ++ squote ++ "\x7d\""

/-- Substring test on character lists. -/
def containsSub (pat : List Char) : List Char → Bool
  | [] => pat.isEmpty
  | c :: rest => pat.isPrefixOf (c :: rest) || containsSub pat rest

/-- Number of (possibly overlapping) occurrences of a pattern in a
character list. -/
def countOccur (pat : List Char) : List Char → Nat
  | [] => 0
  | c :: rest => (if pat.isPrefixOf (c :: rest) then 1 else 0) + countOccur pat rest

/-- Empty-string-is-falsy defaulting, as the JavaScript `||` operator used
by the templates behaves on optional string parameters. -/
def orDefault (v : Option String) (dflt : String) : String :=
  match v with
  | some s => if s = "" then dflt else s
  | none => dflt

/-- Embedding of `TwiMLTemplates.incomingCall` (src/lib/twiml-templates.ts,
lines 10-25): a single template literal interpolating the caller id, the
client identity (defaulted), and one parameter element per custom
parameter, with no escaping of any interpolated value. -/
def TwiMLTemplates.incomingCall (callerId : String) (clientIdentity : Option String)
    (customParams : List (String × String)) : String :=
  "<?xml version=\"1.0\" encoding=\"UTF-8\"?>\n<Response>\n  <Say voice=\"Polly.Joanna\">Welcome to WhatsApp Business Calling</Say>\n  <Dial callerId=\"" ++
    callerId ++ "\">\n    <Client>\n      <Identity>" ++ orDefault clientIdentity "default-client" ++
    "</Identity>\n      " ++
    String.intercalate "\n      "
      (customParams.map (fun kv => "<Parameter name=\"" ++ kv.1 ++ "\" value=\"" ++ kv.2 ++ "\" />")) ++
    "\n    </Client>\n  </Dial>\n</Response>"

/-- Options of `TwiMLBuilder.say` (src/lib/twiml-templates.ts, lines
209-213). -/
structure SayOptions where
  voice : Option String
  language : Option String
  loop : Option Nat
deriving DecidableEq

/-- State of a `TwiMLBuilder` (src/lib/twiml-templates.ts, lines 201-267):
the accumulated element lines, seeded by the constructor with the XML
declaration and the opening Response tag. -/
structure TwiMLBuilder where
  twiml : List String
deriving DecidableEq

/-- Embedding of `new TwiMLBuilder()`. -/
def TwiMLBuilder.start : TwiMLBuilder :=
  { twiml := ["<?xml version=\"1.0\" encoding=\"UTF-8\"?>", "<Response>"] }

/-- Attribute rendering for a truthy optional string option (JavaScript
`if (options?.x) attrs.push(...)`; the empty string is falsy). -/
def optAttr (attrName : String) (v : Option String) : List String :=
  match v with
  | some s => if s = "" then [] else [attrName ++ "=\"" ++ s ++ "\""]
  | none => []

/-- Attribute rendering for a truthy optional numeric option (zero is
falsy in JavaScript). -/
def optAttrNat (attrName : String) (v : Option Nat) : List String :=
  match v with
  | some n => if n = 0 then [] else [attrName ++ "=\"" ++ Nat.repr n ++ "\""]
  | none => []

/-- Attribute list assembled by `TwiMLBuilder.say` from its options
(src/lib/twiml-templates.ts, lines 214-217). -/
def sayAttrs (options : Option SayOptions) : List String :=
  match options with
  | none => []
  | some o => optAttr "voice" o.voice ++ optAttr "language" o.language ++ optAttrNat "loop" o.loop

/-- Opening tag of the Say line pushed by `TwiMLBuilder.say`, including the
space-joined attributes when any are present. -/
def sayOpenTag (options : Option SayOptions) : String :=
  "  <Say" ++
    (if (sayAttrs options).length ≠ 0 then " " ++ String.intercalate " " (sayAttrs options)
     else "") ++ ">"

/-- Embedding of `TwiMLBuilder.say` (src/lib/twiml-templates.ts, lines
209-221): push one Say line interpolating the text verbatim, with the
optional attributes joined by single spaces. -/
def TwiMLBuilder.say (b : TwiMLBuilder) (text : String) (options : Option SayOptions) :
    TwiMLBuilder :=
  { b with twiml := b.twiml ++ [sayOpenTag options ++ text ++ "</Say>"] }

/-- Embedding of `TwiMLBuilder.hangup`. -/
def TwiMLBuilder.hangup (b : TwiMLBuilder) : TwiMLBuilder :=
  { b with twiml := b.twiml ++ ["  <Hangup />"] }

/-- Embedding of `TwiMLBuilder.build` (src/lib/twiml-templates.ts, lines
263-266): push the closing Response tag onto the element list, then return
the newline join of the whole list; the push mutates the builder, so the
post-call builder state is returned alongside the document. -/
def TwiMLBuilder.build (b : TwiMLBuilder) : String × TwiMLBuilder :=
  let b2 : TwiMLBuilder := { b with twiml := b.twiml ++ ["</Response>"] }
  (String.intercalate "\n" b2.twiml, b2)

/-- Strings with equal character data are equal. -/
theorem string_data_inj {a b : String} (h : a.data = b.data) : a = b := by
  cases a
  cases b
  simp only at h
  rw [h]

/-- Rebuilding a string from its own data is the identity. -/
theorem string_mk_data (s : String) : String.mk s.data = s := by
  cases s
  rfl

/-- Looking up the key just set returns the value just set. -/
theorem mapGet_mapSet_self {β : Type} (m : List (String × β)) (k : String) (v : β) :
    mapGet (mapSet m k v) k = some v := by
  induction m with
  | nil => simp [mapSet, mapGet]
  | cons e rest ih =>
      by_cases h : e.1 = k
      · simp [mapSet, mapGet, h]
      · simp [mapSet, mapGet, h, ih]

/-- Setting a key that is already present leaves the key list unchanged. -/
theorem mapKeys_mapSet_of_mem {β : Type} (m : List (String × β)) (k : String) (v : β)
    (h : k ∈ mapKeys m) : mapKeys (mapSet m k v) = mapKeys m := by
  induction m with
  | nil => simp [mapKeys] at h
  | cons e rest ih =>
      obtain ⟨k2, v2⟩ := e
      by_cases hk : k2 = k
      · simp [mapSet, hk, mapKeys]
      · have h2 : k ∈ mapKeys rest := by
          simp [mapKeys] at h
          rcases h with h | h
          · exact absurd h.symm hk
          · simpa [mapKeys] using h
        have h3 := ih h2
        simp only [mapKeys, List.map_cons] at h3 ⊢
        simp only [mapSet, if_neg hk, List.map_cons]
        rw [h3]

/-- Setting a key that is absent appends it to the key list. -/
theorem mapKeys_mapSet_of_not_mem {β : Type} (m : List (String × β)) (k : String) (v : β)
    (h : k ∉ mapKeys m) : mapKeys (mapSet m k v) = mapKeys m ++ [k] := by
  induction m with
  | nil => simp [mapSet, mapKeys]
  | cons e rest ih =>
      obtain ⟨k2, v2⟩ := e
      have hk : k2 ≠ k := by
        intro hc
        exact h (by simp [mapKeys, hc])
      have h2 : k ∉ mapKeys rest := by
        intro hc
        refine h ?_
        simp [mapKeys] at hc ⊢
        exact Or.inr hc
      have h3 := ih h2
      simp only [mapKeys, List.map_cons] at h3 ⊢
      simp only [mapSet, if_neg hk, List.map_cons]
      rw [h3]
      rfl

/-- Membership in a map after `set` comes from the new entry or the old map. -/
theorem mem_mapSet {β : Type} {m : List (String × β)} {k : String} {v : β} {e : String × β}
    (h : e ∈ mapSet m k v) : e = (k, v) ∨ e ∈ m := by
  induction m with
  | nil => simpa [mapSet] using h
  | cons e2 rest ih =>
      obtain ⟨k2, v2⟩ := e2
      by_cases hk : k2 = k
      · simp [mapSet, hk] at h
        rcases h with h | h
        · exact Or.inl (by simp [h])
        · exact Or.inr (by simp [h])
      · simp [mapSet, hk] at h
        rcases h with h | h
        · exact Or.inr (by simp [h])
        · rcases ih h with h2 | h2
          · exact Or.inl h2
          · exact Or.inr (by simp [h2])

/-- Membership survives `delete` backwards: entries of the smaller map were
entries of the original. -/
theorem mem_mapDelete {β : Type} {m : List (String × β)} {k : String} {e : String × β}
    (h : e ∈ mapDelete m k) : e ∈ m := by
  induction m with
  | nil => simp [mapDelete] at h
  | cons e2 rest ih =>
      obtain ⟨k2, v2⟩ := e2
      by_cases hk : k2 = k
      · simp [mapDelete, hk] at h
        simp [h]
      · simp [mapDelete, hk] at h
        rcases h with h | h
        · simp [h]
        · simp [ih h]

/-- Successful lookup exhibits a map entry. -/
theorem mapGet_mem {β : Type} {m : List (String × β)} {k : String} {v : β}
    (h : mapGet m k = some v) : (k, v) ∈ m := by
  induction m with
  | nil => simp [mapGet] at h
  | cons e rest ih =>
      obtain ⟨k2, v2⟩ := e
      by_cases hk : k2 = k
      · simp [mapGet, hk] at h
        subst hk
        subst h
        exact List.mem_cons_self _ _
      · simp [mapGet, hk] at h
        exact List.mem_cons_of_mem _ (ih h)

/-- Lookup of a key outside the key list fails. -/
theorem mapGet_eq_none_of_not_mem {β : Type} {m : List (String × β)} {k : String}
    (h : k ∉ mapKeys m) : mapGet m k = none := by
  induction m with
  | nil => rfl
  | cons e rest ih =>
      obtain ⟨k2, v2⟩ := e
      have hk : k2 ≠ k := by
        intro hc
        exact h (by simp [mapKeys, hc])
      have h2 : k ∉ mapKeys rest := by
        intro hc
        refine h ?_
        simp [mapKeys] at hc ⊢
        exact Or.inr hc
      simp [mapGet, hk]
      exact ih h2

/-- The executable substring test agrees with the infix relation. -/
theorem containsSub_infix_iff (pat l : List Char) : containsSub pat l = true ↔ pat <:+: l := by
  induction l with
  | nil =>
      simp only [containsSub, List.isEmpty_iff]
      constructor
      · intro h
        rw [h]
      · intro h
        exact List.eq_nil_of_infix_nil h
  | cons c rest ih =>
      simp only [containsSub, Bool.or_eq_true, List.isPrefixOf_iff_prefix, ih,
        List.infix_cons_iff]

/-- Every element of the joined list occurs inside the result of the
`String.intercalate.go` accumulator loop, and so does the accumulator. -/
theorem go_infix_intercalate (sep : String) (l : List String) :
    ∀ acc : String, acc.data <:+: (String.intercalate.go acc sep l).data ∧
      ∀ x ∈ l, x.data <:+: (String.intercalate.go acc sep l).data := by
  induction l with
  | nil =>
      intro acc
      exact ⟨List.infix_refl _, by intro x hx; simp at hx⟩
  | cons a as ih =>
      intro acc
      have hgo : String.intercalate.go acc sep (a :: as) =
          String.intercalate.go (acc ++ sep ++ a) sep as := rfl
      have hmain := ih (acc ++ sep ++ a)
      constructor
      · have h1 : acc.data <+: (acc ++ sep ++ a).data := by
          simp only [String.data_append, List.append_assoc]
          exact List.prefix_append _ _
        exact (List.IsPrefix.isInfix h1).trans hmain.1
      · intro x hx
        rcases List.mem_cons.mp hx with hx | hx
        · subst hx
          have h1 : x.data <:+ (acc ++ sep ++ x).data := by
            simp only [String.data_append]
            exact List.suffix_append _ _
          exact (List.IsSuffix.isInfix h1).trans hmain.1
        · exact hgo ▸ hmain.2 x hx

/-- Every element of a list occurs as a substring of its newline join. -/
theorem infix_intercalate (sep : String) (l : List String) (x : String) (hx : x ∈ l) :
    x.data <:+: (String.intercalate sep l).data := by
  cases l with
  | nil => simp at hx
  | cons a as =>
      rcases List.mem_cons.mp hx with h | h
      · subst h
        exact (go_infix_intercalate sep as x).1
      · exact (go_infix_intercalate sep as a).2 x h

/-- The source validation regular expression accepts exactly the amended
canonical shape: channel prefix, `+`, a first digit 1-9, then 1 to 14
further digits. -/
theorem isValid_iff_shape (s : String) :
    isValidWhatsAppNumber s = true ↔ canonicalShapeAmended s := by
  unfold isValidWhatsAppNumber canonicalShapeAmended
  constructor
  · intro h
    rw [Bool.and_eq_true] at h
    obtain ⟨h1, h2⟩ := h
    rw [List.isPrefixOf_iff_prefix] at h1
    obtain ⟨t, ht⟩ := h1
    have hd : s.data.drop 10 = t := by
      rw [← ht]
      have h10 : ("whatsapp:+".data).length = 10 := by decide
      rw [← h10]
      exact List.drop_left _ _
    rw [hd] at h2
    cases t with
    | nil => simp at h2
    | cons c cs =>
        simp only [Bool.and_eq_true, decide_eq_true_eq, List.all_eq_true] at h2
        obtain ⟨⟨⟨hc1, hc2⟩, hl1, hl2⟩, hall⟩ := h2
        exact ⟨c, cs, ht.symm, hc1, hc2, hl1, hl2, hall⟩
  · rintro ⟨c, cs, hdata, hc1, hc2, hl1, hl2, hall⟩
    rw [Bool.and_eq_true]
    constructor
    · rw [List.isPrefixOf_iff_prefix, hdata]
      exact List.prefix_append _ _
    · have hd : s.data.drop 10 = c :: cs := by
        rw [hdata]
        have h10 : ("whatsapp:+".data).length = 10 := by decide
        rw [← h10]
        exact List.drop_left _ _
      rw [hd]
      simp only [Bool.and_eq_true, decide_eq_true_eq, List.all_eq_true]
      exact ⟨⟨⟨hc1, hc2⟩, hl1, hl2⟩, hall⟩

/-- Normalization always produces the channel tag followed by a string that
starts with `+`. -/
theorem format_data (a : String) :
    ∃ t : List Char, (formatWhatsAppNumber a).data = "whatsapp:".data ++ t ∧
      "+".data.isPrefixOf t = true := by
  simp only [formatWhatsAppNumber]
  generalize (if strStarts a whatsappTag then String.mk (a.data.drop 9) else a) = c
  by_cases h : strStarts c "+"
  · refine ⟨c.data, ?_, ?_⟩
    · rw [if_pos h, String.data_append]
      rfl
    · exact h
  · refine ⟨("+" ++ c).data, ?_, ?_⟩
    · rw [if_neg h, String.data_append]
      rfl
    · rw [String.data_append, List.isPrefixOf_iff_prefix]
      exact List.prefix_append _ _

/-- Normalization is idempotent on every input string. -/
theorem format_idem (a : String) :
    formatWhatsAppNumber (formatWhatsAppNumber a) = formatWhatsAppNumber a := by
  obtain ⟨t, hdata, hplus⟩ := format_data a
  generalize hb : formatWhatsAppNumber a = b at hdata ⊢
  apply string_data_inj
  have h1 : strStarts b whatsappTag = true := by
    unfold strStarts
    rw [hdata, List.isPrefixOf_iff_prefix]
    exact List.prefix_append _ _
  have h2 : b.data.drop 9 = t := by
    rw [hdata]
    have h9 : ("whatsapp:".data).length = 9 := by decide
    rw [← h9]
    exact List.drop_left _ _
  have h3 : strStarts (String.mk t) "+" = true := hplus
  simp only [formatWhatsAppNumber, h1, if_true]
  rw [h2]
  simp only [h3, if_true]
  rw [String.data_append, hdata]
  rfl

/-- Normalizing an address already accepted by the validator returns it
unchanged. -/
theorem format_valid_fixed (a : String) (h : isValidWhatsAppNumber a = true) :
    formatWhatsAppNumber a = a := by
  obtain ⟨c, cs, hdata, _, _, _, _, _⟩ := (isValid_iff_shape a).mp h
  have hsplit : a.data = "whatsapp:".data ++ ((Char.ofNat 43) :: c :: cs) := by
    rw [hdata]
    have hx : "whatsapp:+".data = "whatsapp:".data ++ [Char.ofNat 43] := by decide
    rw [hx, List.append_assoc]
    rfl
  apply string_data_inj
  have h1 : strStarts a whatsappTag = true := by
    unfold strStarts
    rw [hsplit, List.isPrefixOf_iff_prefix]
    exact List.prefix_append _ _
  have h2 : a.data.drop 9 = (Char.ofNat 43) :: c :: cs := by
    rw [hsplit]
    have h9 : ("whatsapp:".data).length = 9 := by decide
    rw [← h9]
    exact List.drop_left _ _
  simp only [formatWhatsAppNumber, h1, if_true, h2]
  have h3 : strStarts (String.mk ((Char.ofNat 43) :: c :: cs)) "+" = true := by
    simp [strStarts, List.isPrefixOf]
  rw [if_pos h3, String.data_append, hsplit]
  rfl

/-- Folding membership-guarded insertion over fresh, duplicate-free keys
appends them in order. -/
theorem foldl_insert_eq_append :
    ∀ (ps acc : List String), ps.Nodup → (∀ p ∈ ps, p ∉ acc) →
      ps.foldl (fun ks p => if p ∈ ks then ks else ks ++ [p]) acc = acc ++ ps := by
  intro ps
  induction ps with
  | nil =>
      intro acc _ _
      simp
  | cons p ps ih =>
      intro acc hnd hdisj
      have hp1 : p ∉ acc := hdisj p (by simp)
      have hnd2 : ps.Nodup := (List.nodup_cons.mp hnd).2
      have hp2 : p ∉ ps := (List.nodup_cons.mp hnd).1
      simp only [List.foldl_cons, if_neg hp1]
      rw [ih (acc ++ [p]) hnd2 ?_]
      · simp
      · intro q hq
        simp only [List.mem_append, List.mem_singleton]
        rintro (h | h)
        · exact hdisj q (by simp [hq]) h
        · exact hp2 (h ▸ hq)

/-- Adding a list of well-tagged addresses never throws, keeps the id and
conference call, and updates the participant key list by membership-guarded
append in order. -/
theorem addAll_ok :
    ∀ (ps : List String) (s : ConferenceSession) (d : Device),
      (∀ p ∈ ps, strStarts p whatsappTag = true) →
      ∃ s2 d2, addAllParticipants s d ps = Except.ok (s2, d2) ∧
        s2.getParticipants =
          ps.foldl (fun ks p => if p ∈ ks then ks else ks ++ [p]) s.getParticipants ∧
        s2.conferenceId = s.conferenceId ∧ s2.conferenceCall = s.conferenceCall := by
  intro ps
  induction ps with
  | nil =>
      intro s d _
      exact ⟨s, d, rfl, by simp, rfl, rfl⟩
  | cons p ps ih =>
      intro s d hall
      have hp := hall p (by simp)
      have hadd : s.addParticipant d p = Except.ok
          ({ s with participants := mapSet s.participants p { sid := d.nextSid, muted := false } },
           { nextSid := d.nextSid + 1 }) := by
        simp [ConferenceSession.addParticipant, hp, Device.connect]
      obtain ⟨s2, d2, heq, hparts, hid, hcall⟩ :=
        ih ({ s with participants := mapSet s.participants p { sid := d.nextSid, muted := false } })
          ({ nextSid := d.nextSid + 1 }) (fun q hq => hall q (by simp [hq]))
      refine ⟨s2, d2, ?_, ?_, ?_, ?_⟩
      · simp only [addAllParticipants, hadd]
        exact heq
      · rw [hparts]
        simp only [List.foldl_cons]
        have hkeys : ConferenceSession.getParticipants
            { s with participants := mapSet s.participants p { sid := d.nextSid, muted := false } } =
            if p ∈ s.getParticipants then s.getParticipants else s.getParticipants ++ [p] := by
          by_cases hmem : p ∈ mapKeys s.participants
          · simp only [ConferenceSession.getParticipants,
              mapKeys_mapSet_of_mem _ _ _ hmem]
            rw [if_pos hmem]
          · simp only [ConferenceSession.getParticipants,
              mapKeys_mapSet_of_not_mem _ _ _ hmem]
            rw [if_neg hmem]
        rw [hkeys]
      · exact hid
      · exact hcall

/-- Appending a fresh element preserves freedom from duplicates. -/
theorem nodup_append_singleton {l : List String} {a : String}
    (h : l.Nodup) (ha : a ∉ l) : (l ++ [a]).Nodup := by
  rw [List.nodup_append]
  refine ⟨h, List.nodup_singleton a, ?_⟩
  intro x hx hxa
  simp only [List.mem_singleton] at hxa
  exact ha (hxa ▸ hx)

/-- Every registry state the example server can reach keeps every
conference's participant list free of duplicates. -/
theorem clientReachable_nodup :
    ∀ r, ClientReachable r → ∀ e ∈ r, e.2.participants.Nodup := by
  intro r h
  induction h with
  | empty =>
      intro e he
      simp at he
  | create r2 name mod f t hr ih =>
      intro e he
      rcases mem_mapSet he with h1 | h1
      · rw [h1]
        exact List.nodup_nil
      · exact ih e h1
  | join r2 name f hr ih =>
      intro e he
      unfold conferenceJoin at he
      split at he
      · rename_i conf hget
        split at he
        · exact ih e he
        · rename_i hmem
          rcases mem_mapSet he with h1 | h1
          · rw [h1]
            exact nodup_append_singleton (ih (name, conf) (mapGet_mem hget)) hmem
          · exact ih e h1
      · exact ih e he
  | terminate r2 name hr ih =>
      intro e he
      exact ih e (mem_mapDelete he)

/-- A text fragment sits inside the line it is spliced into. -/
theorem text_infix_line (pre post text : String) :
    text.data <:+: (pre ++ text ++ post).data := by
  simp only [String.data_append]
  exact List.infix_append _ _ _

/-- An infix of a list is an infix of any right extension. -/
theorem infix_append_right {l m : List Char} (x : List Char) (h : l <:+: m) :
    l <:+: m ++ x :=
  h.trans (List.IsPrefix.isInfix (List.prefix_append m x))

/-- Text passed to the fluent `say` operation occurs verbatim in the built
document. -/
theorem say_build_verbatim (b : TwiMLBuilder) (text : String) (options : Option SayOptions) :
    text.data <:+: (((b.say text options).build).1).data := by
  have hdoc : ((b.say text options).build).1 =
      String.intercalate "\n"
        ((b.twiml ++ [sayOpenTag options ++ text ++ "</Say>"]) ++ ["</Response>"]) := rfl
  rw [hdoc]
  refine List.IsInfix.trans (text_infix_line (sayOpenTag options) "</Say>" text) ?_
  exact infix_intercalate "\n" _ _ (by simp)

/-- The caller id passed to the incoming-call template occurs verbatim in
the rendered document. -/
theorem incomingCall_verbatim (callerId : String) (ident : Option String)
    (ps : List (String × String)) :
    callerId.data <:+: (TwiMLTemplates.incomingCall callerId ident ps).data := by
  unfold TwiMLTemplates.incomingCall
  simp only [String.data_append]
  exact infix_append_right _ (infix_append_right _ (infix_append_right _
    (infix_append_right _ (List.infix_append _ _ _))))

/-- C1: the claim says `renderConferenceCreate` enables the start-on-enter
and end-on-exit flags exactly when `isModerator` is true, with every
attribute consistently quoted in both branches.  The source cannot deliver
this: line 40 of src/lib/twiml-templates.ts closes the false-branch value
literal after the brace instead of after `false`, so the line holds an odd
number of single quotes (an unterminated literal) and the text
`false` followed by a closing brace and a double quote where the correctly
quoted line 41 holds a single-quoted `false`.  The spec itself flags this
quoting inconsistency as a defect and names consistent quoting as the
intended behavior, so the code, not the claim, is wrong. -/
theorem C1_quoting_defect :
    (startOnEnterLine.data.filter (fun c => c = Char.ofNat 39)).length = 3 ∧
    (endOnExitLine.data.filter (fun c => c = Char.ofNat 39)).length = 4 ∧
    containsSub ("false\x7d\"").data startOnEnterLine.data = true ∧
    containsSub ((squote ++ "false" ++ squote).data) startOnEnterLine.data = false ∧
    containsSub ((squote ++ "false" ++ squote).data) endOnExitLine.data = true := by
  decide

/-- C2: the claim (and the spec) require repeated `build()` calls to be
idempotent, never duplicating the closing Response tag.  The code pushes
the closing tag on every call, so the document returned by the second
`build()` contains two closing tags where the first contained one. -/
theorem C2_build_not_idempotent :
    countOccur ("</Response>".data) ((TwiMLBuilder.start.build).1.data) = 1 ∧
    countOccur ("</Response>".data) (((TwiMLBuilder.start.build).2.build).1.data) = 2 := by
  decide

/-- C3 counterexample: with conference `c1` already present (created at
time 5, holding one participant), the create handler does not fail with a
duplicate error — no failure path exists — and it does not leave the
existing record unchanged: the record is replaced by a fresh one with an
empty participant list and the new creation time 9. -/
theorem C3_counterexample :
    conferenceJoin (conferenceCreate [] "c1" "true" "whatsapp:+15550001" 5)
        "c1" "whatsapp:+15550002" =
      [("c1", { id := "c1", participants := ["whatsapp:+15550002"],
                moderator := some "whatsapp:+15550001", createdAt := 5 })] ∧
    conferenceCreate
        (conferenceJoin (conferenceCreate [] "c1" "true" "whatsapp:+15550001" 5)
          "c1" "whatsapp:+15550002")
        "c1" "true" "whatsapp:+15550001" 9 =
      [("c1", { id := "c1", participants := [],
                moderator := some "whatsapp:+15550001", createdAt := 9 })] := by
  decide

/-- C3 amended: conference creation never fails on a duplicate id; whether
or not the id is present, the registry afterwards maps the id to a freshly
created record (creation time set to the call time, empty participant list
in the server registry), replacing any existing record.  In the SDK
wrapper, creation with well-tagged, duplicate-free initial participants
succeeds and stores a session holding exactly those participants in the
given order, likewise overwriting any session under the same id. -/
theorem C3_create_overwrites :
    (∀ (reg : List (String × ConfRecord)) (name mod f : String) (t : Nat),
      mapGet (conferenceCreate reg name mod f t) name =
        some { id := name, participants := [],
               moderator := if mod = "true" then some f else none, createdAt := t }) ∧
    (∀ (st : VoiceState) (opts : ConferenceOptions),
      (∀ p ∈ opts.participants, strStarts p whatsappTag = true) →
      opts.participants.Nodup →
      ∃ st2, WhatsAppVoice.createConference st opts = Except.ok st2 ∧
        ∃ s2, mapGet st2.activeConferences opts.conferenceId = some s2 ∧
          s2.getParticipants = opts.participants) := by
  constructor
  · intro reg name mod f t
    exact mapGet_mapSet_self _ _ _
  · intro st opts hvalid hnd
    obtain ⟨s2, d2, heq, hparts, hid, hcall⟩ :=
      addAll_ok opts.participants
        { conferenceId := opts.conferenceId, participants := [],
          conferenceCall := some { sid := st.device.nextSid, muted := false } }
        { nextSid := st.device.nextSid + 1 } hvalid
    have hinit : ConferenceSession.initSession
        { conferenceId := opts.conferenceId, participants := [], conferenceCall := none }
        st.device opts.participants = Except.ok (s2, d2) := heq
    simp only [WhatsAppVoice.createConference, hinit]
    refine ⟨_, rfl, s2, mapGet_mapSet_self _ _ _, ?_⟩
    rw [hparts]
    have h0 : ConferenceSession.getParticipants
        { conferenceId := opts.conferenceId, participants := [],
          conferenceCall := some { sid := st.device.nextSid, muted := false } } = [] := rfl
    rw [h0, foldl_insert_eq_append opts.participants [] hnd (by simp)]
    simp

/-- C3 witness: the amended statement evaluated at a registry that already
holds `c1` and at a fresh SDK wrapper creating `c1` with one participant. -/
theorem C3_witness :
    (mapGet (conferenceCreate
        [("c1", { id := "c1", participants := ["whatsapp:+15550002"],
                  moderator := none, createdAt := 0 })] "c1" "false" "f" 9) "c1" =
      some { id := "c1", participants := [],
             moderator := if ("false" : String) = "true" then some "f" else none,
             createdAt := 9 }) ∧
    (∃ st2, WhatsAppVoice.createConference
        { activeCalls := [], activeConferences := [], device := { nextSid := 0 } }
        { conferenceId := "c1", participants := ["whatsapp:+15550001"], moderator := false } =
          Except.ok st2 ∧
      ∃ s2, mapGet st2.activeConferences "c1" = some s2 ∧
        s2.getParticipants = ["whatsapp:+15550001"]) :=
  ⟨C3_create_overwrites.1 _ "c1" "false" "f" 9,
   C3_create_overwrites.2 _ _ (by decide) (by decide)⟩

/-- C4 counterexample: the renderers perform no escaping.  Saying the text
`<b>` puts the raw characters `<b>` into the built document (the escaped
form is absent), and an incoming-call render with caller id `<evil>` puts
the raw `<evil>` into the document — markup operator characters from
user-supplied text fields appear unescaped in the output. -/
theorem C4_counterexample :
    containsSub ("<b>".data) (((TwiMLBuilder.start.say "<b>" none).build).1.data) = true ∧
    containsSub ("&lt;b&gt;".data) (((TwiMLBuilder.start.say "<b>" none).build).1.data) = false ∧
    containsSub ("<evil>".data) ((TwiMLTemplates.incomingCall "<evil>" none []).data) = true := by
  decide

/-- A non-empty client identity passed to the incoming-call template occurs
verbatim in the rendered document (the JavaScript fallback replaces only an
absent or empty identity with the default). -/
theorem identity_verbatim (callerId ident : String) (ps : List (String × String))
    (h : ident ≠ "") :
    ident.data <:+: (TwiMLTemplates.incomingCall callerId (some ident) ps).data := by
  unfold TwiMLTemplates.incomingCall
  have hid : orDefault (some ident) "default-client" = ident := by
    simp [orDefault, h]
  rw [hid]
  simp only [String.data_append]
  exact infix_append_right _ (infix_append_right _ (List.infix_append _ _ _))

/-- Every custom parameter name and every custom parameter value occurs
verbatim in the rendered incoming-call document. -/
theorem param_verbatim (callerId : String) (identOpt : Option String)
    (ps : List (String × String)) (k v : String) (hmem : (k, v) ∈ ps) :
    k.data <:+: (TwiMLTemplates.incomingCall callerId identOpt ps).data ∧
    v.data <:+: (TwiMLTemplates.incomingCall callerId identOpt ps).data := by
  unfold TwiMLTemplates.incomingCall
  have hline : ("<Parameter name=\"" ++ k ++ "\" value=\"" ++ v ++ "\" />") ∈
      ps.map (fun kv => "<Parameter name=\"" ++ kv.1 ++ "\" value=\"" ++ kv.2 ++ "\" />") :=
    List.mem_map_of_mem _ hmem
  have hj : ("<Parameter name=\"" ++ k ++ "\" value=\"" ++ v ++ "\" />").data <:+:
      (String.intercalate "\n      "
        (ps.map (fun kv => "<Parameter name=\"" ++ kv.1 ++ "\" value=\"" ++ kv.2 ++ "\" />"))).data :=
    infix_intercalate _ _ _ hline
  constructor
  · have hk : k.data <:+: ("<Parameter name=\"" ++ k ++ "\" value=\"" ++ v ++ "\" />").data := by
      simp only [String.data_append]
      exact infix_append_right _ (infix_append_right _ (List.infix_append _ _ _))
    simp only [String.data_append]
    exact (hk.trans hj).trans (List.infix_append _ _ _)
  · have hv : v.data <:+: ("<Parameter name=\"" ++ k ++ "\" value=\"" ++ v ++ "\" />").data := by
      simp only [String.data_append]
      exact List.infix_append _ _ _
    simp only [String.data_append]
    exact (hv.trans hj).trans (List.infix_append _ _ _)

/-- C4 amended: render operations insert every user-supplied text field
verbatim, with no escaping: the raw field value, markup operator characters
included, always occurs as a contiguous substring of the produced document
— the fluent `say` text on any builder, the incoming-call caller id, the
client identity (whenever it is non-empty; the JavaScript fallback
substitutes the default only for an absent or empty identity), and every
custom parameter name and value. -/
theorem C4_verbatim_insertion :
    (∀ (b : TwiMLBuilder) (text : String) (options : Option SayOptions),
      containsSub text.data ((((b.say text options).build).1).data) = true) ∧
    (∀ (callerId : String) (ident : Option String) (ps : List (String × String)),
      containsSub callerId.data ((TwiMLTemplates.incomingCall callerId ident ps).data) = true) ∧
    (∀ (callerId ident : String) (ps : List (String × String)), ident ≠ "" →
      containsSub ident.data ((TwiMLTemplates.incomingCall callerId (some ident) ps).data) = true) ∧
    (∀ (callerId : String) (identOpt : Option String) (ps : List (String × String)) (k v : String),
      (k, v) ∈ ps →
      containsSub k.data ((TwiMLTemplates.incomingCall callerId identOpt ps).data) = true ∧
      containsSub v.data ((TwiMLTemplates.incomingCall callerId identOpt ps).data) = true) := by
  refine ⟨?_, ?_, ?_, ?_⟩
  · intro b text options
    rw [containsSub_infix_iff]
    exact say_build_verbatim b text options
  · intro callerId ident ps
    rw [containsSub_infix_iff]
    exact incomingCall_verbatim callerId ident ps
  · intro callerId ident ps h
    rw [containsSub_infix_iff]
    exact identity_verbatim callerId ident ps h
  · intro callerId identOpt ps k v hmem
    rw [containsSub_infix_iff, containsSub_infix_iff]
    exact param_verbatim callerId identOpt ps k v hmem

/-- C4 witness: the amended statement evaluated at a render with a
markup-bearing identity and one markup-bearing custom parameter. -/
theorem C4_witness :
    containsSub ("agent<1>" : String).data
        ((TwiMLTemplates.incomingCall "c" (some "agent<1>") [("k&", "v<")]).data) = true ∧
    containsSub ("k&" : String).data
        ((TwiMLTemplates.incomingCall "c" (some "agent<1>") [("k&", "v<")]).data) = true ∧
    containsSub ("v<" : String).data
        ((TwiMLTemplates.incomingCall "c" (some "agent<1>") [("k&", "v<")]).data) = true :=
  ⟨C4_verbatim_insertion.2.2.1 "c" "agent<1>" [("k&", "v<")] (by decide),
   (C4_verbatim_insertion.2.2.2 "c" (some "agent<1>") [("k&", "v<")] "k&" "v<" (by decide)).1,
   (C4_verbatim_insertion.2.2.2 "c" (some "agent<1>") [("k&", "v<")] "k&" "v<" (by decide)).2⟩

/-- C5 counterexample: `whatsapp:+01` has exactly the shape the claim
demands — channel prefix, `+`, two digits — yet the validator rejects it,
because the source regular expression forbids a leading zero. -/
theorem C5_counterexample :
    claimedCanonicalShape "whatsapp:+01" ∧ isValidWhatsAppNumber "whatsapp:+01" = false := by
  constructor
  · refine ⟨[Char.ofNat 48, Char.ofNat 49], by decide, by decide, by decide, ?_⟩
    intro x hx
    simp only [List.mem_cons, List.not_mem_nil, or_false] at hx
    rcases hx with h | h <;> rw [h] <;> exact ⟨by decide, by decide⟩
  · decide

/-- C5 amended: the validator returns true exactly for strings of the form
channel prefix, `+`, a first digit restricted to 1-9, then 1 to 14 further
digits 0-9 (so 2 to 15 digits in total with a nonzero leading digit). -/
theorem C5_isValid_characterization (s : String) :
    isValidWhatsAppNumber s = true ↔ canonicalShapeAmended s :=
  isValid_iff_shape s

/-- C6: address normalization is idempotent on every raw input, and an
address already accepted by the validator is returned unchanged. -/
theorem C6_normalize_idempotent (a : String) :
    formatWhatsAppNumber (formatWhatsAppNumber a) = formatWhatsAppNumber a ∧
    (isValidWhatsAppNumber a = true → formatWhatsAppNumber a = a) :=
  ⟨format_idem a, format_valid_fixed a⟩

/-- C6 witness: idempotence at a bare number and stability at a canonical
address. -/
theorem C6_witness :
    formatWhatsAppNumber (formatWhatsAppNumber "15550001") = formatWhatsAppNumber "15550001" ∧
    formatWhatsAppNumber "whatsapp:+15550001" = "whatsapp:+15550001" :=
  ⟨(C6_normalize_idempotent "15550001").1,
   (C6_normalize_idempotent "whatsapp:+15550001").2 (by decide)⟩

/-- C7: in every reachable server-registry state no conference holds a
duplicate participant; joining with an address already present is a no-op
on the registry and raises nothing; and in the SDK session, adding an
already-present well-tagged address succeeds without error and leaves the
participant list unchanged. -/
theorem C7_no_duplicate_participants :
    (∀ r, ClientReachable r → ∀ e ∈ r, e.2.participants.Nodup) ∧
    (∀ (r : List (String × ConfRecord)) (name f : String) (c : ConfRecord),
      mapGet r name = some c → f ∈ c.participants → conferenceJoin r name f = r) ∧
    (∀ (s : ConferenceSession) (d : Device) (num : String),
      strStarts num whatsappTag = true → num ∈ s.getParticipants →
      ∃ s2 d2, s.addParticipant d num = Except.ok (s2, d2) ∧
        s2.getParticipants = s.getParticipants) := by
  refine ⟨clientReachable_nodup, ?_, ?_⟩
  · intro r name f c hget hmem
    unfold conferenceJoin
    rw [hget]
    simp only [if_pos hmem]
  · intro s d num hval hmem
    refine ⟨{ s with participants := mapSet s.participants num { sid := d.nextSid, muted := false } }, { nextSid := d.nextSid + 1 }, ?_, ?_⟩
    · simp [ConferenceSession.addParticipant, hval, Device.connect]
    · simpa only [ConferenceSession.getParticipants] using
        mapKeys_mapSet_of_mem s.participants num { sid := d.nextSid, muted := false } hmem

/-- C7 witness: the invariant at a reachable two-step registry, the join
no-op at a concrete registry, and the session-level no-op for a present
address. -/
theorem C7_witness :
    ((("c1", ({ id := "c1", participants := ["whatsapp:+15550001"], moderator := none,
                createdAt := 0 } : ConfRecord))).2.participants.Nodup) ∧
    conferenceJoin
        [("c1", { id := "c1", participants := ["p"], moderator := none, createdAt := 0 })]
        "c1" "p" =
      [("c1", { id := "c1", participants := ["p"], moderator := none, createdAt := 0 })] ∧
    (∃ s2 d2, ConferenceSession.addParticipant
        { conferenceId := "c1",
          participants := [("whatsapp:+15550001", { sid := 0, muted := false })],
          conferenceCall := none } { nextSid := 1 } "whatsapp:+15550001" =
          Except.ok (s2, d2) ∧
      s2.getParticipants = ["whatsapp:+15550001"]) :=
  ⟨C7_no_duplicate_participants.1 _
      (ClientReachable.join _ "c1" "whatsapp:+15550001"
        (ClientReachable.create _ "c1" "false" "x" 0 ClientReachable.empty))
      _ (by decide),
   C7_no_duplicate_participants.2.1 _ "c1" "p"
      { id := "c1", participants := ["p"], moderator := none, createdAt := 0 }
      (by decide) (by decide),
   C7_no_duplicate_participants.2.2 _ _ "whatsapp:+15550001" (by decide) (by decide)⟩

/-- C8: a destination that does not begin with the channel tag is rejected
up front: `makeCall` returns the validation error, makes no connect
attempt, and leaves the whole wrapper state — in particular the active-call
registry — untouched. -/
theorem C8_makeCall_rejects_untagged (st : VoiceState) (sender : String)
    (options : WhatsAppCallOptions) (h : strStarts options.toAddr whatsappTag = false) :
    WhatsAppVoice.makeCall st sender options =
      (st, Except.error "Invalid WhatsApp number format. Must start with \"whatsapp:\"", []) := by
  unfold WhatsAppVoice.makeCall
  rw [h]
  simp

/-- C8 witness: a bare `+` number (no channel tag) is rejected with the
state unchanged and no connect attempt. -/
theorem C8_witness :
    WhatsAppVoice.makeCall
        { activeCalls := [], activeConferences := [], device := { nextSid := 0 } }
        "whatsapp:+15550009"
        { toAddr := "+15551234567", fromAddr := none, customParameters := [] } =
      ({ activeCalls := [], activeConferences := [], device := { nextSid := 0 } },
       Except.error "Invalid WhatsApp number format. Must start with \"whatsapp:\"", []) :=
  C8_makeCall_rejects_untagged _ _ _ (by decide)

/-- C9: removing an address that is not a participant of the session is a
total no-op: no error path exists and the session — participant list and
all other fields — is returned unchanged. -/
theorem C9_remove_absent_noop (s : ConferenceSession) (num : String)
    (h : num ∉ s.getParticipants) : s.removeParticipant num = s := by
  unfold ConferenceSession.removeParticipant
  rw [mapGet_eq_none_of_not_mem h]

/-- C9 witness: removing a stranger address from a one-participant session
returns the session unchanged. -/
theorem C9_witness :
    ConferenceSession.removeParticipant
        { conferenceId := "c1",
          participants := [("whatsapp:+15550001", { sid := 0, muted := false })],
          conferenceCall := none } "whatsapp:+19999999999" =
      { conferenceId := "c1",
        participants := [("whatsapp:+15550001", { sid := 0, muted := false })],
        conferenceCall := none } :=
  C9_remove_absent_noop _ _ (by decide)

/-- C10: muting or unmuting an address that is not a participant silently
does nothing: no error path exists, no mute command is sent, and the
session (participant map and every call's mute state) is unchanged. -/
theorem C10_mute_absent_noop (s : ConferenceSession) (num : String)
    (h : num ∉ s.getParticipants) :
    s.muteParticipant num = (s, []) ∧ s.unmuteParticipant num = (s, []) := by
  unfold ConferenceSession.muteParticipant ConferenceSession.unmuteParticipant
  rw [mapGet_eq_none_of_not_mem h]
  exact ⟨rfl, rfl⟩

/-- C10 witness: muting and unmuting a stranger address on a session with
one muted and one unmuted participant changes nothing and sends nothing. -/
theorem C10_witness :
    ConferenceSession.muteParticipant
        { conferenceId := "c1",
          participants := [("whatsapp:+15550001", { sid := 0, muted := false }),
                           ("whatsapp:+15550002", { sid := 1, muted := true })],
          conferenceCall := none } "whatsapp:+19999999999" =
      ({ conferenceId := "c1",
         participants := [("whatsapp:+15550001", { sid := 0, muted := false }),
                          ("whatsapp:+15550002", { sid := 1, muted := true })],
         conferenceCall := none }, []) ∧
    ConferenceSession.unmuteParticipant
        { conferenceId := "c1",
          participants := [("whatsapp:+15550001", { sid := 0, muted := false }),
                           ("whatsapp:+15550002", { sid := 1, muted := true })],
          conferenceCall := none } "whatsapp:+19999999999" =
      ({ conferenceId := "c1",
         participants := [("whatsapp:+15550001", { sid := 0, muted := false }),
                          ("whatsapp:+15550002", { sid := 1, muted := true })],
         conferenceCall := none }, []) :=
  C10_mute_absent_noop _ _ (by decide)
